import Mathlib

/-!
Shallow embedding of `src/internet/dropboxservice.cpp` (the Dropbox provider
of the Clementine media player).

The C++ file is a callback-driven adapter around two REST endpoints.  We model
Qt's `QVariant` values (as decoded from JSON by `QJson::Parser`) with the
`Variant` type below, the service's mutable members (`access_token_`,
`access_token_secret_`) together with its `QSettings` group as a
`ServiceState`, and every externally visible action a handler performs
(network requests, signal emissions, UI requests, tag-read requests) as an
`Effect`.  Each C++ member function becomes a pure Lean function from the
current state (plus the decoded network reply where the C++ slot receives
one) to the new state and the list of effects it issues, in order.
-/

/-- A Qt `QVariant` as produced by `QJson::Parser` on a network reply body:
JSON null/bool/number/string/array/object.  A failed parse yields `null`. -/
inductive Variant : Type
  | null
  | bool (b : Bool)
  | int (n : Int)
  | str (s : String)
  | list (xs : List Variant)
  | map (kvs : List (String × Variant))

/-- `QVariant::toMap()`: the key/value pairs when the variant is a map,
otherwise the empty map. -/
def Variant.toMap : Variant → List (String × Variant)
  | .map kvs => kvs
  | _ => []

/-- `QVariant::toList()`: the elements when the variant is a list, otherwise
the empty list. -/
def Variant.toList : Variant → List Variant
  | .list xs => xs
  | _ => []

/-- Whether the variant is a JSON list. -/
def Variant.isList : Variant → Bool
  | .list _ => true
  | _ => false

/-- `QVariant::toBool()`: booleans pass through, numbers are tested against
zero, a string is true unless empty, "0" or "false"; everything else
(null, lists, maps) converts to `false`. -/
def Variant.toBool : Variant → Bool
  | .bool b => b
  | .int n => !(n == 0)
  | .str s => !(s == "" || s == "0" || s == "false")
  | _ => false

/-- `QVariant::toString()`: strings pass through, booleans and numbers are
rendered; null, lists and maps convert to the empty string. -/
def Variant.toStr : Variant → String
  | .str s => s
  | .bool b => if b then "true" else "false"
  | .int n => toString n
  | _ => ""

/-- `QVariant::toInt()`: integers pass through, booleans become 0/1, strings
are parsed (0 on failure); everything else converts to 0. -/
def Variant.toInt : Variant → Int
  | .int n => n
  | .bool b => if b then 1 else 0
  | .str s => (s.toInt?).getD 0
  | _ => 0

/-- `QVariantMap::operator[]` used read-only: the value stored under the key,
or a default-constructed (null) `QVariant` when the key is absent. -/
def mapLookup : List (String × Variant) → String → Variant
  | [], _ => .null
  | (k, v) :: rest, key => if k == key then v else mapLookup rest key

/-- The persisted settings group (`QSettings` under `kSettingsGroup`):
string keys to string values. -/
def SettingsStore : Type := List (String × String)

/-- `QSettings::value(key).toString()` restricted to the group: `none` when
the key was never written. -/
def getValue : SettingsStore → String → Option String
  | [], _ => none
  | (k, v) :: rest, key => if k == key then some v else getValue rest key

/-- `QSettings::setValue(key, value)` within the group: overwrite in place
or append. -/
def setValue : SettingsStore → String → String → SettingsStore
  | [], key, value => [(key, value)]
  | (k, v) :: rest, key, value =>
      if k == key then (key, value) :: rest else (k, v) :: setValue rest key value

/-- The `DropboxService` object's state: its two credential members and the
contents of its `QSettings` group. -/
structure ServiceState : Type where
  access_token : String
  access_token_secret : String
  settings : SettingsStore

/-- Every externally visible action a handler can perform: an asynchronous
metadata GET (`RequestFileList`), an asynchronous media POST
(`FetchContentUrl`), opening the settings dialog, emitting the `Connected()`
signal, signalling an error to the host (which no handler in this file ever
does), and a `ReadCloudFile` tag-read request. -/
inductive Effect : Type
  | listRequest (url : String) (auth : String × String)
  | contentFetch (url : String) (auth : String × String)
  | showSettingsDialog
  | emitConnected
  | errorSignal
  | tagRead (url : String) (filename : String) (size : Int) (mime : String)
  deriving DecidableEq

/-- `kMetadataEndpoint` from the anonymous namespace. -/
def kMetadataEndpoint : String := "https://api.dropbox.com/1/metadata/dropbox/"

/-- `kMediaEndpoint` from the anonymous namespace. -/
def kMediaEndpoint : String := "https://api.dropbox.com/1/media/dropbox/"

/-- The tokens a `DropboxAuthenticator` carries when `AuthenticationFinished`
fires: `access_token()`, `access_token_secret()` and `name()`. -/
structure Authenticator : Type where
  access_token : String
  access_token_secret : String
  name : String

/-- `DropboxService::DropboxService`: reads `access_token` and
`access_token_secret` from the settings group (a missing key reads as the
empty string, `QVariant().toString()`). -/
def DropboxServiceInit (st : SettingsStore) : ServiceState :=
  { access_token := (getValue st "access_token").getD ""
    access_token_secret := (getValue st "access_token_secret").getD ""
    settings := st }

/-- `DropboxService::has_credentials`: the access token is non-empty. -/
def has_credentials (s : ServiceState) : Bool :=
  !s.access_token.isEmpty

/-- `DropboxService::GenerateAuthorisationHeader` delegates to
`DropboxAuthenticator::GenerateAuthorisationHeader(access_token_,
access_token_secret_)`, defined outside this file; we model the signed
header as the pair of credentials it is computed from. -/
def GenerateAuthorisationHeader (s : ServiceState) : String × String :=
  (s.access_token, s.access_token_secret)

/-- `DropboxService::RequestFileList(path)`: an asynchronous GET of
`kMetadataEndpoint + path` with the signed Authorization header; the
completion is wired to `RequestFileListFinished`. -/
def RequestFileList (s : ServiceState) (path : String) : ServiceState × List Effect :=
  (s, [Effect.listRequest (kMetadataEndpoint ++ path) (GenerateAuthorisationHeader s)])

/-- `DropboxService::Connect`: list the root when credentials are present,
otherwise open the settings dialog. -/
def Connect (s : ServiceState) : ServiceState × List Effect :=
  if has_credentials s then RequestFileList s "" else (s, [Effect.showSettingsDialog])

/-- `DropboxService::AuthenticationFinished(authenticator)`: overwrite both
credential members, persist `access_token`, `access_token_secret` and `name`
to the settings group, emit `Connected()`, then request the root listing. -/
def AuthenticationFinished (s : ServiceState) (a : Authenticator) :
    ServiceState × List Effect :=
  let s1 : ServiceState :=
    { access_token := a.access_token
      access_token_secret := a.access_token_secret
      settings :=
        setValue (setValue (setValue s.settings "access_token" a.access_token)
          "access_token_secret" a.access_token_secret) "name" a.name }
  let r := RequestFileList s1 ""
  (r.1, Effect.emitConnected :: r.2)

/-- `IsSupportedMimeType` from the anonymous namespace. -/
def IsSupportedMimeType (mime_type : String) : Bool :=
  mime_type == "audio/ogg" || mime_type == "audio/mpeg"

/-- `DropboxService::FetchContentUrl(url)`: a POST of
`kMediaEndpoint + url.path()` with the signed Authorization header.  The
argument is the path component of the `dropbox:` URL. -/
def FetchContentUrl (s : ServiceState) (path : String) : Effect :=
  Effect.contentFetch (kMediaEndpoint ++ path) (GenerateAuthorisationHeader s)

/-- The body of the `foreach` loop of `RequestFileListFinished`, for one
element `c` of the `contents` list: a directory entry triggers a recursive
`RequestFileList(item["path"])`; otherwise an entry whose `mime_type` is
supported triggers `FetchContentUrl` on a `dropbox:` URL whose path is
`item["path"]`; every other entry is skipped. -/
def processEntry (s : ServiceState) (c : Variant) : List Effect :=
  let item := Variant.toMap c
  if (mapLookup item "is_dir").toBool then
    (RequestFileList s ((mapLookup item "path").toStr)).2
  else if IsSupportedMimeType ((mapLookup item "mime_type").toStr) then
    [FetchContentUrl s ((mapLookup item "path").toStr)]
  else
    []

/-- The decoded `contents` list of a listing reply:
`parser.parse(reply).toMap()["contents"].toList()`. -/
def listingContents (reply : Variant) : List Variant :=
  (mapLookup (Variant.toMap reply) "contents").toList

/-- `DropboxService::RequestFileListFinished(reply)`: decode the body, walk
the `contents` list and process each entry.  No member is written. -/
def RequestFileListFinished (s : ServiceState) (reply : Variant) :
    ServiceState × List Effect :=
  (s, (listingContents reply).flatMap (processEntry s))

/-- `QFileInfo::fileName()`: the component after the last slash. -/
def fileNameOf (p : String) : String :=
  String.mk (p.data.foldl (fun acc c => if c = '/' then [] else acc ++ [c]) [])

/-- `DropboxService::FetchContentUrlFinished(reply, data)`: decode the media
reply, then request `ReadCloudFile(response["url"], QFileInfo(data["path"])
.fileName(), data["bytes"], data["mime_type"], QString::null)`.  `data` is
the listing entry map that was bound into the completion closure. -/
def FetchContentUrlFinished (s : ServiceState) (reply : Variant)
    (data : List (String × Variant)) : ServiceState × List Effect :=
  let response := Variant.toMap reply
  (s, [Effect.tagRead ((mapLookup response "url").toStr)
        (fileNameOf ((mapLookup data "path").toStr))
        ((mapLookup data "bytes").toInt)
        ((mapLookup data "mime_type").toStr)])

/-- `DropboxService::ReadTagsFinished`: only logs; no state change, no
effect. -/
def ReadTagsFinished (s : ServiceState) : ServiceState × List Effect :=
  (s, [])

/-- `DropboxService::GetStreamingUrlFromSongId(url)`: issue
`FetchContentUrl(url)`, block until the reply arrives (`WaitForSignal`),
decode it and return `response["url"]`.  The decoded reply body is passed
explicitly since the network is external. -/
def GetStreamingUrlFromSongId (s : ServiceState) (path : String)
    (reply : Variant) : ServiceState × String × List Effect :=
  (s, (mapLookup (Variant.toMap reply) "url").toStr, [FetchContentUrl s path])

/-!
A model of a finite remote directory tree, for the traversal claims.  The
metadata endpoint, queried at a directory's path, answers with the JSON
listing of that directory's immediate children; `encodeListing` builds that
reply.  `crawlEntry`/`crawlList` replay the chain the source runs — each
listing completion (`RequestFileListFinished`) recursively issues
`RequestFileList` for sub-directories — as one structural recursion over the
tree, and `crawlFuelEntry` is the same recursion metered by explicit fuel,
one unit per directory-nesting level.
-/

mutual
/-- A node of the remote tree: an audio/other file with its `mime_type` and
`bytes`, or a directory with its children. -/
inductive FSEntry : Type
  | file (path : String) (mime : String) (bytes : Int)
  | dir (path : String) (children : FSList)
/-- A list of sibling nodes. -/
inductive FSList : Type
  | nil
  | cons (e : FSEntry) (rest : FSList)
end

/-- The JSON map the listing endpoint reports for one child entry. -/
def encodeEntry : FSEntry → Variant
  | .file p m b =>
      .map [("path", .str p), ("is_dir", .bool false),
            ("mime_type", .str m), ("bytes", .int b)]
  | .dir p _ =>
      .map [("path", .str p), ("is_dir", .bool true)]

/-- The encoded `contents` array for a directory's children. -/
def encodeContents : FSList → List Variant
  | .nil => []
  | .cons e rest => encodeEntry e :: encodeContents rest

/-- The full listing reply body for a directory whose children are `ch`. -/
def encodeListing (ch : FSList) : Variant :=
  .map [("contents", .list (encodeContents ch))]

mutual
/-- Directory-nesting depth of a node (a file is 0, a directory one more
than its deepest child). -/
def FSEntry.depth : FSEntry → Nat
  | .file _ _ _ => 0
  | .dir _ ch => FSList.depthList ch + 1
/-- Greatest depth among siblings. -/
def FSList.depthList : FSList → Nat
  | .nil => 0
  | .cons e rest => max (FSEntry.depth e) (FSList.depthList rest)
end

mutual
/-- All effects the traversal issues for one node, in request order: a file
contributes its content fetch (when supported), a directory contributes its
listing request followed by everything its completion spawns. -/
def crawlEntry (s : ServiceState) : FSEntry → List Effect
  | .file p m _ => if IsSupportedMimeType m then [FetchContentUrl s p] else []
  | .dir p ch =>
      Effect.listRequest (kMetadataEndpoint ++ p) (GenerateAuthorisationHeader s)
        :: crawlList s ch
/-- All effects the traversal issues for a sibling list. -/
def crawlList (s : ServiceState) : FSList → List Effect
  | .nil => []
  | .cons e rest => crawlEntry s e ++ crawlList s rest
end

mutual
/-- `crawlEntry` metered by fuel: descending into a directory's children
costs one unit; `none` means the fuel ran out before the tree bottomed
out. -/
def crawlFuelEntry (s : ServiceState) : Nat → FSEntry → Option (List Effect)
  | _, .file p m _ =>
      some (if IsSupportedMimeType m then [FetchContentUrl s p] else [])
  | 0, .dir _ _ => none
  | Nat.succ n, .dir p ch =>
      match crawlFuelList s n ch with
      | none => none
      | some es =>
          some (Effect.listRequest (kMetadataEndpoint ++ p)
            (GenerateAuthorisationHeader s) :: es)
/-- Fuel-metered crawl of a sibling list (siblings share the same level, so
the same fuel). -/
def crawlFuelList (s : ServiceState) : Nat → FSList → Option (List Effect)
  | _, .nil => some []
  | n, .cons e rest =>
      match crawlFuelEntry s n e, crawlFuelList s n rest with
      | some l1, some l2 => some (l1 ++ l2)
      | _, _ => none
end

/-- The listing-request URL an effect carries, if it is one. -/
def effectListUrl : Effect → Option String
  | .listRequest u _ => some u
  | _ => none

/-- The listing-request URLs of an effect sequence, in order. -/
def listRequestUrls (es : List Effect) : List String :=
  es.filterMap effectListUrl

mutual
/-- The metadata-endpoint URLs of all directories of a node, in the preorder
the traversal discovers them. -/
def FSEntry.dirUrls : FSEntry → List String
  | .file _ _ _ => []
  | .dir p ch => (kMetadataEndpoint ++ p) :: FSList.dirUrlsList ch
/-- The same for a sibling list. -/
def FSList.dirUrlsList : FSList → List String
  | .nil => []
  | .cons e rest => FSEntry.dirUrls e ++ FSList.dirUrlsList rest
end

/-- The immediate effect one listing completion produces for one child. -/
def immEffect (s : ServiceState) : FSEntry → List Effect
  | .file p m _ => if IsSupportedMimeType m then [FetchContentUrl s p] else []
  | .dir p _ => (RequestFileList s p).2

/-- The immediate effects one listing completion produces, child by child. -/
def immList (s : ServiceState) : FSList → List Effect
  | .nil => []
  | .cons e rest => immEffect s e ++ immList s rest

theorem toList_eq_nil_of_not_isList (v : Variant) (h : v.isList = false) :
    v.toList = [] := by
  cases v <;> simp_all [Variant.isList, Variant.toList]

theorem processEntry_encodeEntry (s : ServiceState) (e : FSEntry) :
    processEntry s (encodeEntry e) = immEffect s e := by
  cases e with
  | file p m b =>
      simp [processEntry, encodeEntry, immEffect, Variant.toMap, mapLookup,
        Variant.toBool, Variant.toStr]
  | dir p ch => rfl

theorem listingContents_encode (ch : FSList) :
    listingContents (encodeListing ch) = encodeContents ch := by
  simp [listingContents, encodeListing, Variant.toMap, mapLookup, Variant.toList]

theorem flatMap_encodeContents (s : ServiceState) (ch : FSList) :
    (encodeContents ch).flatMap (processEntry s) = immList s ch := by
  match ch with
  | .nil => rfl
  | .cons e rest =>
      have ih := flatMap_encodeContents s rest
      simp [encodeContents, immList, List.flatMap_cons, processEntry_encodeEntry, ih]

theorem reqFinished_encode (s : ServiceState) (ch : FSList) :
    (RequestFileListFinished s (encodeListing ch)).2 = immList s ch := by
  simp [RequestFileListFinished, listingContents_encode, flatMap_encodeContents]

theorem crawlFuelList_eq_of_entry (s : ServiceState) (n : Nat)
    (hE : ∀ t : FSEntry, FSEntry.depth t ≤ n →
      crawlFuelEntry s n t = some (crawlEntry s t))
    (ch : FSList) (h : FSList.depthList ch ≤ n) :
    crawlFuelList s n ch = some (crawlList s ch) := by
  match ch with
  | .nil => simp [crawlFuelList, crawlList]
  | .cons e rest =>
      have hmax : max (FSEntry.depth e) (FSList.depthList rest) ≤ n := by
        simpa [FSList.depthList] using h
      have he := hE e (le_trans (le_max_left _ _) hmax)
      have hr := crawlFuelList_eq_of_entry s n hE rest
        (le_trans (le_max_right _ _) hmax)
      simp [crawlFuelList, crawlList, he, hr]

theorem crawlFuelEntry_eq (s : ServiceState) :
    ∀ (n : Nat) (t : FSEntry), FSEntry.depth t ≤ n →
      crawlFuelEntry s n t = some (crawlEntry s t) := by
  intro n
  induction n with
  | zero =>
      intro t h
      cases t with
      | file p m b => simp [crawlFuelEntry, crawlEntry]
      | dir p ch => simp [FSEntry.depth] at h
  | succ m ih =>
      intro t h
      cases t with
      | file p m b => simp [crawlFuelEntry, crawlEntry]
      | dir p ch =>
          have hch : FSList.depthList ch ≤ m := by
            simp [FSEntry.depth] at h; omega
          have hl := crawlFuelList_eq_of_entry s m ih ch hch
          simp [crawlFuelEntry, crawlEntry, hl]

theorem listRequestUrls_append (l1 l2 : List Effect) :
    listRequestUrls (l1 ++ l2) = listRequestUrls l1 ++ listRequestUrls l2 := by
  simp [listRequestUrls, List.filterMap_append]

theorem urls_crawlList_of_entry (s : ServiceState) (n : Nat)
    (hE : ∀ t : FSEntry, FSEntry.depth t ≤ n →
      listRequestUrls (crawlEntry s t) = FSEntry.dirUrls t)
    (ch : FSList) (h : FSList.depthList ch ≤ n) :
    listRequestUrls (crawlList s ch) = FSList.dirUrlsList ch := by
  match ch with
  | .nil => simp [crawlList, FSList.dirUrlsList, listRequestUrls]
  | .cons e rest =>
      have hmax : max (FSEntry.depth e) (FSList.depthList rest) ≤ n := by
        simpa [FSList.depthList] using h
      have he := hE e (le_trans (le_max_left _ _) hmax)
      have hr := urls_crawlList_of_entry s n hE rest (le_trans (le_max_right _ _) hmax)
      simp [crawlList, FSList.dirUrlsList, listRequestUrls_append, he, hr]

theorem urls_crawlEntry_bounded (s : ServiceState) :
    ∀ (n : Nat) (t : FSEntry), FSEntry.depth t ≤ n →
      listRequestUrls (crawlEntry s t) = FSEntry.dirUrls t := by
  intro n
  induction n with
  | zero =>
      intro t h
      cases t with
      | file p m b =>
          cases hm : IsSupportedMimeType m <;>
            simp [crawlEntry, FSEntry.dirUrls, listRequestUrls, effectListUrl,
              FetchContentUrl, hm]
      | dir p ch => simp [FSEntry.depth] at h
  | succ m ih =>
      intro t h
      cases t with
      | file p m b =>
          cases hm : IsSupportedMimeType m <;>
            simp [crawlEntry, FSEntry.dirUrls, listRequestUrls, effectListUrl,
              FetchContentUrl, hm]
      | dir p ch =>
          have hch : FSList.depthList ch ≤ m := by
            simp [FSEntry.depth] at h; omega
          have hl := urls_crawlList_of_entry s m ih ch hch
          simp [crawlEntry, FSEntry.dirUrls, listRequestUrls, effectListUrl]
          simpa [listRequestUrls] using hl

theorem urls_crawlEntry (s : ServiceState) (t : FSEntry) :
    listRequestUrls (crawlEntry s t) = FSEntry.dirUrls t :=
  urls_crawlEntry_bounded s (FSEntry.depth t) t le_rfl

theorem getValue_setValue_self (st : SettingsStore) (k v : String) :
    getValue (setValue st k v) k = some v := by
  induction st with
  | nil => simp [setValue, getValue]
  | cons q rest ih =>
      obtain ⟨k0, v0⟩ := q
      by_cases h : k0 = k
      · simp [setValue, getValue, h]
      · simp [setValue, getValue, h, ih]

theorem getValue_setValue_ne (st : SettingsStore) (k v key : String)
    (h : k ≠ key) : getValue (setValue st k v) key = getValue st key := by
  induction st with
  | nil => simp [setValue, getValue, h]
  | cons q rest ih =>
      obtain ⟨k0, v0⟩ := q
      by_cases h0 : k0 = k
      · subst h0; simp [setValue, getValue, h]
      · simp [setValue, getValue, h0, ih]

/-- Claim C1: in `RequestFileListFinished`, a non-directory entry of the
decoded `contents` list gets a content-URL fetch if and only if its
`mime_type` is exactly `audio/ogg` or `audio/mpeg`; any other non-directory
entry contributes no effect at all. -/
theorem C1_nondir_fetch_iff_supported_mime (s : ServiceState)
    (reply c : Variant) (_hc : c ∈ listingContents reply)
    (hd : (mapLookup (Variant.toMap c) "is_dir").toBool = false) :
    (RequestFileListFinished s reply).2
        = (listingContents reply).flatMap (processEntry s)
      ∧ processEntry s c =
          (if IsSupportedMimeType ((mapLookup (Variant.toMap c) "mime_type").toStr)
           then [FetchContentUrl s ((mapLookup (Variant.toMap c) "path").toStr)]
           else []) := by
  refine ⟨rfl, ?_⟩
  simp [processEntry, hd]

theorem C1_witness :
    Variant.map [("path", Variant.str "/b.mp3"), ("is_dir", Variant.bool false),
        ("mime_type", Variant.str "audio/mpeg"), ("bytes", Variant.int 100)]
      ∈ listingContents (Variant.map [("contents", Variant.list
          [Variant.map [("path", Variant.str "/b.mp3"), ("is_dir", Variant.bool false),
            ("mime_type", Variant.str "audio/mpeg"), ("bytes", Variant.int 100)]])])
    ∧ processEntry ⟨"T", "S", []⟩
        (Variant.map [("path", Variant.str "/b.mp3"), ("is_dir", Variant.bool false),
          ("mime_type", Variant.str "audio/mpeg"), ("bytes", Variant.int 100)])
      = [FetchContentUrl ⟨"T", "S", []⟩ "/b.mp3"] := by
  refine ⟨List.mem_cons_self _ _, ?_⟩
  have h := C1_nondir_fetch_iff_supported_mime ⟨"T", "S", []⟩
    (Variant.map [("contents", Variant.list
      [Variant.map [("path", Variant.str "/b.mp3"), ("is_dir", Variant.bool false),
        ("mime_type", Variant.str "audio/mpeg"), ("bytes", Variant.int 100)]])])
    (Variant.map [("path", Variant.str "/b.mp3"), ("is_dir", Variant.bool false),
      ("mime_type", Variant.str "audio/mpeg"), ("bytes", Variant.int 100)])
    (List.mem_cons_self _ _) rfl
  simpa using h.2

/-- Claim C2: in `RequestFileListFinished`, a directory entry of the decoded
`contents` list triggers exactly one recursive `RequestFileList` whose path
argument is the entry's `path` field, and no content-URL fetch, whatever its
`mime_type`. -/
theorem C2_dir_entry_recurses_once (s : ServiceState) (reply c : Variant)
    (_hc : c ∈ listingContents reply)
    (hd : (mapLookup (Variant.toMap c) "is_dir").toBool = true) :
    processEntry s c = (RequestFileList s ((mapLookup (Variant.toMap c) "path").toStr)).2
      ∧ processEntry s c
          = [Effect.listRequest (kMetadataEndpoint ++ (mapLookup (Variant.toMap c) "path").toStr)
              (GenerateAuthorisationHeader s)]
      ∧ (∀ u a, Effect.contentFetch u a ∉ processEntry s c) := by
  refine ⟨by simp [processEntry, hd], by simp [processEntry, hd, RequestFileList], ?_⟩
  intro u a
  simp [processEntry, hd, RequestFileList]

theorem C2_witness :
    Variant.map [("path", Variant.str "/a"), ("is_dir", Variant.bool true),
        ("mime_type", Variant.str "audio/mpeg")]
      ∈ listingContents (Variant.map [("contents", Variant.list
          [Variant.map [("path", Variant.str "/a"), ("is_dir", Variant.bool true),
            ("mime_type", Variant.str "audio/mpeg")]])])
    ∧ processEntry ⟨"T", "S", []⟩
        (Variant.map [("path", Variant.str "/a"), ("is_dir", Variant.bool true),
          ("mime_type", Variant.str "audio/mpeg")])
      = [Effect.listRequest (kMetadataEndpoint ++ "/a") ("T", "S")] := by
  refine ⟨List.mem_cons_self _ _, ?_⟩
  have h := C2_dir_entry_recurses_once ⟨"T", "S", []⟩
    (Variant.map [("contents", Variant.list
      [Variant.map [("path", Variant.str "/a"), ("is_dir", Variant.bool true),
        ("mime_type", Variant.str "audio/mpeg")]])])
    (Variant.map [("path", Variant.str "/a"), ("is_dir", Variant.bool true),
      ("mime_type", Variant.str "audio/mpeg")])
    (List.mem_cons_self _ _) rfl
  simpa [GenerateAuthorisationHeader] using h.2.1

/-- Claim C3: when a listing reply does not decode to a map whose
`contents` field is a list (malformed JSON, an error object, an empty
body), `RequestFileListFinished` issues no effect at all — no recursive
listing, no content fetch, no error signal — and leaves the whole service
state, credentials included, unchanged. -/
theorem C3_malformed_listing_degrades_to_empty (s : ServiceState)
    (reply : Variant)
    (h : (mapLookup (Variant.toMap reply) "contents").isList = false) :
    RequestFileListFinished s reply = (s, []) := by
  simp [RequestFileListFinished, listingContents,
    toList_eq_nil_of_not_isList _ h]

theorem C3_witness :
    (mapLookup (Variant.toMap (Variant.str "<html>500</html>")) "contents").isList = false
      ∧ RequestFileListFinished ⟨"T", "S", []⟩ (Variant.str "<html>500</html>")
          = (⟨"T", "S", []⟩, []) :=
  ⟨rfl, C3_malformed_listing_degrades_to_empty ⟨"T", "S", []⟩
    (Variant.str "<html>500</html>") rfl⟩

/-- Claim C4: after `AuthenticationFinished` runs with an authenticator
carrying a (non-empty) token pair and display name, the settings group
holds exactly the new `access_token`, `access_token_secret` and `name`, the
`Connected()` signal is emitted followed by the root listing request made
with the new credentials, and `has_credentials` now reports true. -/
theorem C4_authentication_persists_and_connects (s : ServiceState)
    (a : Authenticator) (h : a.access_token ≠ "") :
    getValue (AuthenticationFinished s a).1.settings "access_token" = some a.access_token
      ∧ getValue (AuthenticationFinished s a).1.settings "access_token_secret"
          = some a.access_token_secret
      ∧ getValue (AuthenticationFinished s a).1.settings "name" = some a.name
      ∧ (AuthenticationFinished s a).2
          = Effect.emitConnected :: (RequestFileList (AuthenticationFinished s a).1 "").2
      ∧ has_credentials (AuthenticationFinished s a).1 = true := by
  refine ⟨?_, ?_, ?_, rfl, ?_⟩
  · rw [AuthenticationFinished]
    simp only [RequestFileList]
    rw [getValue_setValue_ne _ _ _ _ (by decide),
      getValue_setValue_ne _ _ _ _ (by decide), getValue_setValue_self]
  · rw [AuthenticationFinished]
    simp only [RequestFileList]
    rw [getValue_setValue_ne _ _ _ _ (by decide), getValue_setValue_self]
  · rw [AuthenticationFinished]
    simp only [RequestFileList]
    rw [getValue_setValue_self]
  · simp [AuthenticationFinished, RequestFileList, has_credentials,
      Bool.eq_false_iff, String.isEmpty_iff, h]

theorem C4_witness :
    ("tok" : String) ≠ ""
      ∧ getValue (AuthenticationFinished ⟨"", "", []⟩ ⟨"tok", "sec", "Alice"⟩).1.settings
          "access_token" = some "tok"
      ∧ getValue (AuthenticationFinished ⟨"", "", []⟩ ⟨"tok", "sec", "Alice"⟩).1.settings
          "access_token_secret" = some "sec"
      ∧ getValue (AuthenticationFinished ⟨"", "", []⟩ ⟨"tok", "sec", "Alice"⟩).1.settings
          "name" = some "Alice"
      ∧ (AuthenticationFinished ⟨"", "", []⟩ ⟨"tok", "sec", "Alice"⟩).2
          = Effect.emitConnected
              :: (RequestFileList (AuthenticationFinished ⟨"", "", []⟩
                    ⟨"tok", "sec", "Alice"⟩).1 "").2
      ∧ has_credentials (AuthenticationFinished ⟨"", "", []⟩ ⟨"tok", "sec", "Alice"⟩).1
          = true :=
  ⟨by decide, C4_authentication_persists_and_connects ⟨"", "", []⟩
    ⟨"tok", "sec", "Alice"⟩ (by decide)⟩

/-- Claim C5: `Connect` branches exactly on credential presence — with
credentials it issues the one root listing request and nothing else (in
particular no settings dialog), without them it only asks the host to show
the settings dialog (no network request); it never mutates the state and
never signals an error. -/
theorem C5_connect_branches_on_credentials (s : ServiceState) :
    (Connect s).2 = (if has_credentials s
        then [Effect.listRequest (kMetadataEndpoint ++ "") (GenerateAuthorisationHeader s)]
        else [Effect.showSettingsDialog])
      ∧ (Connect s).1 = s
      ∧ Effect.errorSignal ∉ (Connect s).2
      ∧ Effect.showSettingsDialog ∉ (RequestFileList s "").2 := by
  cases h : has_credentials s <;>
    simp [Connect, RequestFileList, h]

/-- Claim C6: the recursive traversal of a finite directory tree terminates.
Replaying the source's listing/completion chain over a tree: the fuel-metered
replay already succeeds with fuel equal to the tree's depth (the recursion
depth is bounded by the tree depth), the listing requests it issues are
exactly one per directory of the tree in discovery order (each directory is
listed once), and one listing completion step is exactly what
`RequestFileListFinished` produces on the encoded listing reply. -/
theorem C6_traversal_terminates_depth_bounded (s : ServiceState)
    (t : FSEntry) (n : Nat) (ch : FSList) (h : FSEntry.depth t ≤ n) :
    crawlFuelEntry s n t = some (crawlEntry s t)
      ∧ listRequestUrls (crawlEntry s t) = FSEntry.dirUrls t
      ∧ (RequestFileListFinished s (encodeListing ch)).2 = immList s ch :=
  ⟨crawlFuelEntry_eq s n t h, urls_crawlEntry s t, reqFinished_encode s ch⟩

theorem C6_witness :
    FSEntry.depth (FSEntry.dir ""
        (FSList.cons (FSEntry.dir "/a" (FSList.cons (FSEntry.file "/a/x.ogg" "audio/ogg" 7) FSList.nil))
          (FSList.cons (FSEntry.file "/b.mp3" "audio/mpeg" 100) FSList.nil))) ≤ 2
      ∧ crawlFuelEntry ⟨"T", "S", []⟩ 2
          (FSEntry.dir ""
            (FSList.cons (FSEntry.dir "/a" (FSList.cons (FSEntry.file "/a/x.ogg" "audio/ogg" 7) FSList.nil))
              (FSList.cons (FSEntry.file "/b.mp3" "audio/mpeg" 100) FSList.nil)))
          = some (crawlEntry ⟨"T", "S", []⟩
              (FSEntry.dir ""
                (FSList.cons (FSEntry.dir "/a" (FSList.cons (FSEntry.file "/a/x.ogg" "audio/ogg" 7) FSList.nil))
                  (FSList.cons (FSEntry.file "/b.mp3" "audio/mpeg" 100) FSList.nil))))
      ∧ listRequestUrls (crawlEntry ⟨"T", "S", []⟩
          (FSEntry.dir ""
            (FSList.cons (FSEntry.dir "/a" (FSList.cons (FSEntry.file "/a/x.ogg" "audio/ogg" 7) FSList.nil))
              (FSList.cons (FSEntry.file "/b.mp3" "audio/mpeg" 100) FSList.nil))))
          = FSEntry.dirUrls
              (FSEntry.dir ""
                (FSList.cons (FSEntry.dir "/a" (FSList.cons (FSEntry.file "/a/x.ogg" "audio/ogg" 7) FSList.nil))
                  (FSList.cons (FSEntry.file "/b.mp3" "audio/mpeg" 100) FSList.nil)))
      ∧ (RequestFileListFinished ⟨"T", "S", []⟩ (encodeListing
            (FSList.cons (FSEntry.dir "/a" (FSList.cons (FSEntry.file "/a/x.ogg" "audio/ogg" 7) FSList.nil))
              (FSList.cons (FSEntry.file "/b.mp3" "audio/mpeg" 100) FSList.nil)))).2
          = immList ⟨"T", "S", []⟩
              (FSList.cons (FSEntry.dir "/a" (FSList.cons (FSEntry.file "/a/x.ogg" "audio/ogg" 7) FSList.nil))
                (FSList.cons (FSEntry.file "/b.mp3" "audio/mpeg" 100) FSList.nil)) := by
  refine ⟨by decide, ?_⟩
  exact C6_traversal_terminates_depth_bounded ⟨"T", "S", []⟩ _ 2 _ (by decide)

/-- A media-endpoint reply carrying, besides `url`, its own `path`, `bytes`
and `mime_type` fields, all different from the listing entry's. -/
def mediaReplySample : Variant :=
  Variant.map [("url", Variant.str "https://dl.dropboxusercontent.com/tmp/xyz"),
    ("path", Variant.str "/from-response.ogg"),
    ("bytes", Variant.int 777),
    ("mime_type", Variant.str "audio/ogg")]

/-- The listing entry bound into the `FetchContentUrlFinished` closure. -/
def listingEntrySample : List (String × Variant) :=
  [("path", Variant.str "/music/song.mp3"), ("is_dir", Variant.bool false),
    ("mime_type", Variant.str "audio/mpeg"), ("bytes", Variant.int 12345)]

/-- Claim C7, counterexample: the tag-read request issued by
`FetchContentUrlFinished` takes only the temporary URL from the content-URL
fetch's JSON response; the filename, size and MIME type it passes come from
the listing entry bound into the closure and differ here from the fields of
the response, so the StreamDescriptor is not decoded entirely from that
response. -/
theorem C7_counterexample :
    (FetchContentUrlFinished ⟨"T", "S", []⟩ mediaReplySample listingEntrySample).2
        = [Effect.tagRead "https://dl.dropboxusercontent.com/tmp/xyz"
            "song.mp3" 12345 "audio/mpeg"]
      ∧ (mapLookup (Variant.toMap mediaReplySample) "mime_type").toStr ≠ "audio/mpeg"
      ∧ (mapLookup (Variant.toMap mediaReplySample) "bytes").toInt ≠ 12345
      ∧ fileNameOf ((mapLookup (Variant.toMap mediaReplySample) "path").toStr)
          ≠ "song.mp3" := by
  refine ⟨rfl, by decide, by decide, by decide⟩

/-- Claim C7, amended: `FetchContentUrlFinished` issues exactly one tag-read
request whose temporary URL is the `url` field decoded from the content-URL
fetch's response, while the filename, size and MIME type are taken from the
`path`, `bytes` and `mime_type` fields of the listing entry that was bound
into the completion closure. -/
theorem C7_amended_stream_descriptor (s : ServiceState) (reply : Variant)
    (data : List (String × Variant)) :
    FetchContentUrlFinished s reply data
      = (s, [Effect.tagRead ((mapLookup (Variant.toMap reply) "url").toStr)
              (fileNameOf ((mapLookup data "path").toStr))
              ((mapLookup data "bytes").toInt)
              ((mapLookup data "mime_type").toStr)]) := rfl

/-- Claim C8: the blocking resolver `GetStreamingUrlFromSongId` issues
exactly the content-fetch request `FetchContentUrl` builds — the media
endpoint URL concatenated with the input's path, signed with the current
credentials — the same request the asynchronous listing path issues for a
supported file at that path, and returns the `url` field of the decoded
response. -/
theorem C8_blocking_resolver_matches_async (s : ServiceState) (p : String)
    (reply : Variant) :
    GetStreamingUrlFromSongId s p reply
        = (s, (mapLookup (Variant.toMap reply) "url").toStr, [FetchContentUrl s p])
      ∧ FetchContentUrl s p
          = Effect.contentFetch (kMediaEndpoint ++ p) (GenerateAuthorisationHeader s)
      ∧ processEntry s (encodeEntry (FSEntry.file p "audio/mpeg" 0))
          = [FetchContentUrl s p] := by
  exact ⟨rfl, rfl, rfl⟩

/-- Claim C9: the credential pair is read once at construction and is only
ever replaced wholesale by `AuthenticationFinished`; every other operation
of the service returns the state it was given — in particular both
credential fields unchanged. -/
theorem C9_credentials_frame (st : SettingsStore) (s : ServiceState)
    (a : Authenticator) (reply : Variant) (data : List (String × Variant))
    (p : String) :
    (DropboxServiceInit st).access_token = (getValue st "access_token").getD ""
      ∧ (DropboxServiceInit st).access_token_secret
          = (getValue st "access_token_secret").getD ""
      ∧ (AuthenticationFinished s a).1.access_token = a.access_token
      ∧ (AuthenticationFinished s a).1.access_token_secret = a.access_token_secret
      ∧ (Connect s).1 = s
      ∧ (RequestFileList s p).1 = s
      ∧ (RequestFileListFinished s reply).1 = s
      ∧ (FetchContentUrlFinished s reply data).1 = s
      ∧ (ReadTagsFinished s).1 = s
      ∧ (GetStreamingUrlFromSongId s p reply).1 = s := by
  refine ⟨rfl, rfl, rfl, rfl, ?_, rfl, rfl, rfl, rfl, rfl⟩
  cases h : has_credentials s <;> simp [Connect, RequestFileList, h]

/-- Claim C10: `has_credentials` looks only at the access token: any state
with a non-empty access token and an empty token secret has credentials,
and `Connect` then issues the root listing rather than opening the settings
dialog; blanking the token alone removes the credentials. -/
theorem C10_token_alone_decides_credentials (s : ServiceState)
    (h1 : s.access_token ≠ "") (_h2 : s.access_token_secret = "") :
    has_credentials s = true
      ∧ (Connect s).2 = (RequestFileList s "").2
      ∧ Effect.showSettingsDialog ∉ (Connect s).2
      ∧ has_credentials { s with access_token := "" } = false := by
  have hc : has_credentials s = true := by
    simp [has_credentials, Bool.eq_false_iff, String.isEmpty_iff, h1]
  refine ⟨hc, by simp [Connect, hc], ?_, by simp [has_credentials, String.isEmpty_iff]⟩
  simp [Connect, hc, RequestFileList]

theorem C10_witness :
    ("tok" : String) ≠ ""
      ∧ has_credentials ⟨"tok", "", []⟩ = true
      ∧ (Connect ⟨"tok", "", []⟩).2 = (RequestFileList ⟨"tok", "", []⟩ "").2
      ∧ Effect.showSettingsDialog ∉ (Connect ⟨"tok", "", []⟩).2
      ∧ has_credentials ⟨"", "", []⟩ = false :=
  ⟨by decide, C10_token_alone_decides_credentials ⟨"tok", "", []⟩ (by decide) rfl⟩
